import Mathlib

/-!
Verification development for the kami-dataset-validator repository.

The Python sources under kami_dataset_validator/ are shallowly embedded:
pure functions become Lean functions, raised exceptions become Except
values, external collaborators (HTTP, checksum libraries, the phone
parsing library) become explicit function parameters, and Python dicts
holding validation outcomes become structures.  Machine specifics that
never matter for the validators (Unicode digit classes beyond ASCII,
float representation of the similarity score) are noted at the relevant
definition.
-/

namespace Kami

/-! ### Python string primitives -/

/-- Removal of every occurrence of each character in `seps`, modelling a
chain of Python `str.replace(sep, '')` calls (each call removes all
occurrences, and removals of distinct characters commute with each
other). -/
def stripChars (seps : List Char) (s : String) : String :=
  ⟨s.data.filter (fun c => !(seps.contains c))⟩

/-- Python `str.isdigit` restricted to ASCII digits: true iff the string
is nonempty and every character is a decimal digit.  (Python also accepts
some non-ASCII Unicode digit characters; the validators only ever meet
ASCII input.) -/
def pyIsDigit (s : String) : Bool :=
  !s.data.isEmpty && s.data.all Char.isDigit

/-- Python truthiness of a string (stated on the character list so that
it unfolds in proofs). -/
def pyTruthy (s : String) : Bool := !s.data.isEmpty

/-- ASCII str.lower, written on the character list so that it reduces
inside the kernel. -/
def pyLower (s : String) : String :=
  ⟨s.data.map fun c => if 'A' ≤ c ∧ c ≤ 'Z' then Char.ofNat (c.toNat + 32) else c⟩

/-- ASCII str.upper, written on the character list so that it reduces
inside the kernel. -/
def pyUpper (s : String) : String :=
  ⟨s.data.map fun c => if 'a' ≤ c ∧ c ≤ 'z' then Char.ofNat (c.toNat - 32) else c⟩

/-- Python truthiness of an optional string (None and the empty string
are falsy). -/
def pyTruthyOpt : Option String → Bool
  | none => false
  | some s => pyTruthy s

/-! ### validators/cpf.py -/

/-- CPFValidator._sanitize_cpf: strips dots, dashes and commas, then
checks all-digits and length 11 (in that order); errors are the
CPFValueError messages. -/
def CPFValidator.sanitize_cpf (cpf : String) : Except String String :=
  let sanitized := stripChars ['.', '-', ','] cpf
  if !pyIsDigit sanitized then
    .error "Invalid CPF format. Ensure it contains only numbers."
  else if sanitized.length ≠ 11 then
    .error "Invalid CPF length. Ensure it has 11 digits."
  else
    .ok sanitized

/-- CPFValidator.validate: the check-digit algorithm of the external
validate_docbr library is an oracle parameter (the spec treats it as a
black box). -/
def CPFValidator.validate (check : String → Bool) (sanitized : String) :
    Except String Bool :=
  if !check sanitized then .error "The provided CPF is not valid."
  else .ok true

structure CpfOutcome where
  cpf : String
  valid : Bool
  reason : String
deriving DecidableEq

/-- CPFValidator.validate_cpfs: per-item outcomes; CPFValueError (and any
other exception) is caught and becomes a valid=false outcome. -/
def CPFValidator.validate_cpfs (check : String → Bool) (cpfs : List String) :
    List CpfOutcome :=
  cpfs.map fun cpf =>
    match CPFValidator.sanitize_cpf cpf with
    | .error e => ⟨cpf, false, e⟩
    | .ok s =>
      match CPFValidator.validate check s with
      | .error e => ⟨cpf, false, e⟩
      | .ok v => ⟨cpf, v, if v then "Valid CPF." else "Invalid CPF."⟩

/-! ### validators/cnpj.py -/

/-- CNPJValidator._sanitize_cnpj: strips dots, slashes, dashes and
commas, then checks all-digits and length 14. -/
def CNPJValidator.sanitize_cnpj (cnpj : String) : Except String String :=
  let sanitized := stripChars ['.', '/', '-', ','] cnpj
  if !pyIsDigit sanitized then
    .error "Invalid CNPJ format. Ensure it contains only numbers."
  else if sanitized.length ≠ 14 then
    .error "Invalid CNPJ length. Ensure it has 14 digits."
  else
    .ok sanitized

/-- CNPJValidator.validate with the validate_docbr checksum as an oracle
parameter. -/
def CNPJValidator.validate (check : String → Bool) (sanitized : String) :
    Except String Bool :=
  if !check sanitized then .error "The provided CNPJ is not valid."
  else .ok true

/-- Result of an HTTP GET: transport failure or a status code plus the
parsed JSON body. -/
inductive HttpResult (α : Type) where
  | transportError (msg : String)
  | response (status : Nat) (body : α)

/-- Projection of the JSON body returned by a CNPJ webservice: only the
cnpj key (brasilapi/receitaws) and result.baseCnpj (brasilaberto) are
ever read, each with default value the empty string. -/
structure CnpjResponse where
  cnpj : String := ""
  baseCnpj : String := ""
deriving DecidableEq

/-- CNPJ_WEBSERVICES base URL templates (constants.py), with the queried
code substituted for the placeholder. -/
def cnpjBaseUrl (ws code : String) : String :=
  if ws = "brasilaberto" then "https://brasilaberto.com/api/v1/cnpj/" ++ code
  else if ws = "brasilapi" then "https://brasilapi.com.br/api/cnpj/v1/" ++ code
  else if ws = "receitaws" then "https://receitaws.com.br/v1/cnpj/" ++ code
  else code

/-- CnpjAPI.fetch_company_info: non-200 status and transport failures
raise APIRequestError (quote characters of the Python f-strings are
omitted from the messages). -/
def CnpjAPI.fetch_company_info (ws : String)
    (http : String → HttpResult CnpjResponse) (cnpj : String) :
    Except String CnpjResponse :=
  let url := cnpjBaseUrl ws cnpj
  match http url with
  | .transportError msg =>
    .error ("An error occurred while requesting " ++ url ++ " from " ++
      pyUpper ws ++ ": " ++ msg)
  | .response status body =>
    if status ≠ 200 then
      .error ("Failed to fetch data from " ++ url ++ " of " ++ pyUpper ws ++ ".")
    else .ok body

/-- CnpjAPI._sanitize_cnpj (the loose variant without digit/length
checks). -/
def CnpjAPI.sanitize_loose (cnpj : String) : String :=
  stripChars ['.', '/', '-', ','] cnpj

/-- CnpjAPI._cnpj_match: re-sanitizes the queried code through
CNPJValidator (which can raise), then compares against the normalized
code of the response record (full 14 digits for brasilapi/receitaws,
first 8 digits for brasilaberto). -/
def CnpjAPI.cnpj_match (ws cnpj : String) (resp : CnpjResponse) :
    Except String Bool := do
  let v ← CNPJValidator.sanitize_cnpj cnpj
  if ws = "brasilapi" ∨ ws = "receitaws" then
    .ok (decide (v = CnpjAPI.sanitize_loose resp.cnpj))
  else if ws = "brasilaberto" then
    .ok (decide (v.take 8 = resp.baseCnpj.take 8))
  else
    .ok false

structure CnpjOutcome where
  cnpj : String
  valid : Bool := false
  reason : String := ""
  company_info : Option CnpjResponse := none
deriving DecidableEq

/-- CnpjAPI.validate_cnpj.  The successive updates of the Python result
dict are mirrored literally: on a _cnpj_match failure the not-found
outcome r1 is produced and then unconditionally overwritten by the
valid=true assignment of the following lines (cnpj.py lines 136-138);
every caught exception becomes a valid=false outcome. -/
def CnpjAPI.validate_cnpj (check : String → Bool) (ws : String)
    (http : String → HttpResult CnpjResponse) (cnpj_str : String) :
    CnpjOutcome :=
  let result : CnpjOutcome := { cnpj := cnpj_str }
  let attempt : Except String CnpjOutcome := do
    let sanitized ← CNPJValidator.sanitize_cnpj cnpj_str
    let v ← CNPJValidator.validate check sanitized
    if !v then
      .ok { result with valid := false, reason := "Invalid CNPJ." }
    else do
      let company_info ← CnpjAPI.fetch_company_info ws http sanitized
      let m ← CnpjAPI.cnpj_match ws sanitized company_info
      let r1 :=
        if !m then
          { result with
            valid := false
            reason := "This CNPJ was not found in the API base " ++ ws ++ "." }
        else result
      .ok { r1 with
        company_info := some company_info
        valid := true
        reason := "Valid CNPJ." }
  match attempt with
  | .ok r => r
  | .error e => { result with valid := false, reason := e }

/-- CnpjAPI.validate_cnpjs: the per-record loop appending one outcome per
input code. -/
def CnpjAPI.validate_cnpjs (check : String → Bool) (ws : String)
    (http : String → HttpResult CnpjResponse) (cnpj_list : List String) :
    List CnpjOutcome :=
  cnpj_list.map (CnpjAPI.validate_cnpj check ws http)

/-! ### difflib.SequenceMatcher core (used by CepAPI._compute_similarity)

The standard-library Ratcliff-Obershelp matcher: repeatedly take the
longest common block (earliest in the first string, then earliest in the
second, among maximal ones) and recurse on the pieces to its left and
right; ratio = 2 * (total matched) / (total length).  The autojunk
heuristic, which only activates on strings of 200+ characters, is
omitted. -/

/-- Length of the common prefix of two character lists. -/
def commonRunLen : List Char → List Char → Nat
  | a :: as, b :: bs => if a = b then commonRunLen as bs + 1 else 0
  | _, _ => 0

/-- All (i, j, k) with i, j in range and k the length of the common run
of the suffixes starting at i and j, enumerated i-major. -/
def candidateBlocks (a b : List Char) : List (Nat × Nat × Nat) :=
  (List.range a.length).flatMap fun i =>
    (List.range b.length).map fun j =>
      (i, j, commonRunLen (a.drop i) (b.drop j))

/-- Keep the candidate with the strictly larger run; ties keep the
earlier one, so the i-major enumeration yields the earliest maximal
block, matching difflib.find_longest_match. -/
def betterBlock (best c : Nat × Nat × Nat) : Nat × Nat × Nat :=
  if best.2.2 < c.2.2 then c else best

/-- difflib SequenceMatcher.find_longest_match over the whole strings. -/
def find_longest_match (a b : List Char) : Nat × Nat × Nat :=
  (candidateBlocks a b).foldl betterBlock (0, 0, 0)

/-- Total number of matched characters (the sum of the sizes of
get_matching_blocks), with explicit fuel; each recursive call strictly
shrinks the first list, so fuel a.length suffices. -/
def matchTotalF : Nat → List Char → List Char → Nat
  | 0, _, _ => 0
  | fuel + 1, a, b =>
    let m := find_longest_match a b
    if m.2.2 = 0 then 0
    else
      matchTotalF fuel (a.take m.1) (b.take m.2.1) + m.2.2 +
        matchTotalF fuel (a.drop (m.1 + m.2.2)) (b.drop (m.2.1 + m.2.2))

def matchTotal (a b : List Char) : Nat := matchTotalF a.length a b

/-- SequenceMatcher.ratio as an exact rational (difflib computes the same
value in floating point; every claim about it concerns bounds and exact
endpoints, which agree). -/
def pyRatio (s t : String) : ℚ :=
  if s.data.length + t.data.length = 0 then 1
  else (2 * matchTotal s.data t.data : ℚ) /
    ((s.data.length : ℚ) + (t.data.length : ℚ))

/-- Python round(x, 3) modelled on rationals as round-half-up of
x * 1000.  (CPython rounds the binary double half-to-even; the two only
differ on exact multiples of 1/2000, which no claim exercises.) -/
def pyRound3 (q : ℚ) : ℚ := ((round (q * 1000) : ℤ) : ℚ) / 1000

/-! ### validators/cep.py -/

structure Address where
  cep : Option String := none
  street : Option String := none
  complement : Option String := none
  district : Option String := none
  city : Option String := none
  state : Option String := none
  ibge : Option String := none
  gia : Option String := none
  ddd : Option String := none
  siafi : Option String := none
deriving DecidableEq

/-- Exceptions of the cep module.  format / inputError / request are the
three caught by validate_address; keyError and typeError model Python
KeyError / TypeError, which are not in its except clause and so escape. -/
inductive CepExc where
  | format (msg : String)
  | inputError (msg : String)
  | request (msg : String)
  | keyError (key : String)
  | typeError (msg : String)
deriving DecidableEq

/-- Address._sanitize_cep applied to the possibly-absent cep attribute:
empty check, strip dashes/dots/spaces, length-8 check, digit check, in
that order. -/
def Address.sanitize_cep_raw (cep : Option String) : Except CepExc String :=
  if !pyTruthyOpt cep then .error (.format "CEP cannot be empty.")
  else
    let c := cep.getD ""
    let sanitized := stripChars ['-', '.', ' '] c
    if sanitized.length ≠ 8 then
      .error (.format ("Invalid CEP: " ++ c ++ ". A valid CEP must have 8 numbers."))
    else if !pyIsDigit sanitized then
      .error (.format ("Invalid CEP: " ++ c ++ ". A CEP must contain only numbers."))
    else .ok sanitized

/-- Address.sanitize_cep: stores the sanitized code back into self.cep
and returns True; exceptions are re-raised unchanged. -/
def Address.sanitize_cep (a : Address) : Except CepExc (Bool × Address) := do
  let s ← Address.sanitize_cep_raw a.cep
  .ok (true, { a with cep := some s })

/-- Candidate record as returned by a free-text address lookup, with the
Portuguese field names of the JSON payload (a missing key is none). -/
structure RawAddr where
  cep : Option String := none
  logradouro : Option String := none
  complemento : Option String := none
  bairro : Option String := none
  localidade : Option String := none
  uf : Option String := none
  ibge : Option String := none
  gia : Option String := none
  ddd : Option String := none
  siafi : Option String := none
deriving DecidableEq

/-- KEY_TRANSLATIONS applied to a candidate dict (constants.py): the six
Portuguese keys are renamed, the registry metadata keys pass through. -/
def RawAddr.translate (d : RawAddr) (cepVal : Option String) : Address :=
  { cep := cepVal
    street := d.logradouro
    complement := d.complemento
    district := d.bairro
    city := d.localidade
    state := d.uf
    ibge := d.ibge
    gia := d.gia
    ddd := d.ddd
    siafi := d.siafi }

/-- Address.from_dict.  With a cep key the code is sanitized (possible
CEPFormatError); otherwise, when logradouro, localidade and uf are all
present, the source calls the one-argument instance method
_validate_locality with two positional arguments, an unconditional
Python TypeError; otherwise InvalidAddressInputError. -/
def Address.from_dict (d : RawAddr) : Except CepExc Address :=
  if d.cep.isSome then do
    let s ← Address.sanitize_cep_raw d.cep
    .ok (d.translate (some s))
  else if d.logradouro.isSome ∧ d.localidade.isSome ∧ d.uf.isSome then
    .error (.typeError
      "_validate_locality() takes 1 positional argument but 3 were given")
  else
    .error (.inputError
      "Address dictionary must have either cep or logradouro, localidade, and uf.")

/-- The ordered attribute list of CepAPI._compute_similarity. -/
def Address.attrValues (a : Address) : List (Option String) :=
  [a.cep, a.street, a.complement, a.district, a.city, a.state, a.ibge,
    a.gia, a.ddd, a.siafi]

/-- The per-attribute ratios over attributes truthy on both sides. -/
def comparableRatios (a1 a2 : Address) : List ℚ :=
  (List.zip a1.attrValues a2.attrValues).filterMap fun p =>
    if pyTruthyOpt p.1 && pyTruthyOpt p.2 then
      some (pyRatio (p.1.getD "") (p.2.getD ""))
    else none

/-- CepAPI._compute_similarity: mean of the comparable ratios rounded to
3 decimals, or 0 when none is comparable. -/
def CepAPI.compute_similarity (a1 a2 : Address) : ℚ :=
  if (comparableRatios a1 a2).isEmpty then 0
  else pyRound3 ((comparableRatios a1 a2).sum /
    ((comparableRatios a1 a2).length : ℚ))

structure ScoredAddress where
  similarity_ratio : ℚ
  address : Address
deriving DecidableEq

/-- Insertion into a descending-sorted list, placing the new element
after every element of greater-or-equal score (so earlier elements keep
priority on ties). -/
def insertScoredDesc (x : ScoredAddress) : List ScoredAddress → List ScoredAddress
  | [] => [x]
  | y :: ys =>
    if x.similarity_ratio ≤ y.similarity_ratio then y :: insertScoredDesc x ys
    else x :: y :: ys

/-- Stable descending sort by similarity_ratio.  Python sorted(...,
reverse=True) is a stable sort on the same key; a stable descending sort
is extensionally unique, so the insertion sort is the same function. -/
def sortScoredDesc (l : List ScoredAddress) : List ScoredAddress :=
  l.foldl (fun acc x => insertScoredDesc x acc) []

/-- The unsorted scored-candidate list built by the loop of
filter_addresses_by_similarity: candidates scoring strictly above 0, in
input order. -/
def scoredCandidates (target : Address) (search_addresses : List Address) :
    List ScoredAddress :=
  search_addresses.filterMap fun ad =>
    if 0 < CepAPI.compute_similarity target ad then
      some ⟨CepAPI.compute_similarity target ad, ad⟩
    else none

/-- Boolean test that a scored candidate carries exactly the score q
(used to state rank stability). -/
def scoreIs (q : ℚ) (z : ScoredAddress) : Bool :=
  decide (z.similarity_ratio = q)

/-- CepAPI.filter_addresses_by_similarity: score every candidate, keep
the strictly positive ones in input order, stable-sort descending. -/
def CepAPI.filter_addresses_by_similarity (target : Address)
    (search_addresses : List Address) : List ScoredAddress :=
  sortScoredDesc (scoredCandidates target search_addresses)

/-- One entry of the CEP_WEBSERVICES catalog defined in cep.py (display
name, URL template split at the placeholder, free-text capability
flag). -/
structure CepWebservice where
  name : String
  urlPart1 : String
  urlPart2 : String
  supports_address : Bool
deriving DecidableEq

def CEP_WEBSERVICES : List (String × CepWebservice) :=
  [("viacep", ⟨"ViaCEP", "https://viacep.com.br/ws/", "/json/", true⟩),
   ("brasilaberto", ⟨"Brasil_Aberto", "https://brasilaberto.com/api/v1/zipcode/", "", false⟩),
   ("opencep", ⟨"OpenCEP", "https://opencep.com/v1/", "", false⟩),
   ("brasilapi", ⟨"BrasilAPI", "https://brasilapi.com.br/api/cep/v2/", "", false⟩)]

def cepCatalogLookup (ws : String) : Option CepWebservice :=
  (CEP_WEBSERVICES.find? (fun p => p.1 = ws)).map Prod.snd

/-- CepAPI.available_webservices: the lowercased display names (note
brasil_aberto, with an underscore, unlike the catalog key). -/
def CepAPI.available_webservices : List String :=
  CEP_WEBSERVICES.map fun p => pyLower p.2.name

/-- The base-URL template of a catalog entry with the code substituted. -/
def cepUrl (ws code : String) : String :=
  match cepCatalogLookup ws with
  | some w => w.urlPart1 ++ code ++ w.urlPart2
  | none => code

/-- CepAPI._suports_address (sic). -/
def CepAPI.suports_address (ws : String) : Bool :=
  ((cepCatalogLookup ws).map (fun w => w.supports_address)).getD false

/-- Projection of the JSON body of a by-code lookup: only the cep key is
ever read, by direct subscript (none models an absent key, which makes
that subscript a KeyError). -/
structure CepResponse where
  cep : Option String := none
deriving DecidableEq

/-- CepAPI._fetch_by_cep: transport failures and non-200 statuses raise
APIRequestError (quote characters of the f-strings omitted). -/
def CepAPI.fetch_by_cep (ws : String) (http : String → HttpResult CepResponse)
    (cep : String) : Except CepExc CepResponse :=
  let url := cepUrl ws cep
  match http url with
  | .transportError msg =>
    .error (.request ("An error occurred while requesting " ++ url ++
      " from " ++ pyUpper ws ++ ": " ++ msg))
  | .response status body =>
    if status ≠ 200 then
      .error (.request ("Failed to fetch data from " ++ url ++ " of " ++
        pyUpper ws ++ "."))
    else .ok body

/-- Modelled from the spec: cep.py line 404 calls self._fetch_by_address,
a method this repository does not define anywhere under src/; per spec
section 4.3, lookupByQuery(backendName, region, city, street) returns a
JSON array of candidate records (or raises RequestError).  It is modelled
as an abstract query function of the three free-text fields. -/
def FetchByAddress : Type :=
  String → String → String → Except CepExc (List RawAddr)

/-- Crude stand-in for json.dumps on the candidate payload, used only to
extend the reason string when suggest_cep is requested; no claim depends
on its exact text. -/
def dumpRawAddrs (l : List RawAddr) : String :=
  String.intercalate ", " (l.map fun d => d.cep.getD "")

structure AddrOutcome where
  address : Address
  valid : Bool
  reason : String
deriving DecidableEq

/-- CepAPI.validate_address.  The try body is the Python if/elif chain:
sanitize_cep either returns True or raises, so the two elif branches are
unreachable; they are embedded nonetheless.  CEPFormatError,
InvalidAddressInputError and APIRequestError are caught and become the
outcome reason; KeyError/TypeError escape as Except.error. -/
def CepAPI.validate_address (ws : String)
    (http : String → HttpResult CepResponse) (query : FetchByAddress)
    (addr : Address) (suggest_cep : Bool) : Except CepExc AddrOutcome :=
  let base : AddrOutcome := { address := addr, valid := false, reason := "" }
  let attempt : Except CepExc AddrOutcome := do
    let ok_addr ← Address.sanitize_cep addr
    let sanitize_ok := ok_addr.1
    let addr2 := ok_addr.2
    if sanitize_ok then do
      let data ← CepAPI.fetch_by_cep ws http (addr2.cep.getD "")
      match data.cep with
      | none => .error (.keyError "cep")
      | some c =>
        if pyTruthy c then .ok { base with valid := true, reason := "Valid CEP." }
        else .ok base
    else if pyTruthyOpt addr2.street && pyTruthyOpt addr2.city &&
        pyTruthyOpt addr2.state && CepAPI.suports_address ws then do
      let data ← query (addr2.state.getD "") (addr2.city.getD "")
        (addr2.street.getD "")
      if !data.isEmpty then
        if data.length = 1 then do
          let found ← Address.from_dict (data.headD {})
          .ok { base with
            valid := true
            reason := "The only CEP suggested for this address was: " ++
              found.cep.getD "" }
        else do
          let candidates ← data.mapM Address.from_dict
          let valid_count :=
            (CepAPI.filter_addresses_by_similarity addr2 candidates).length
          if valid_count > 0 then
            .ok { base with
              valid := true
              reason := toString valid_count ++
                " valid CEPs were found for this address." ++
                (if suggest_cep then " Addresses: " ++ dumpRawAddrs data
                 else "") }
          else
            .ok { base with reason := "No valid CEPs found for this address." }
      else
        .ok { base with reason := "No data found for the given address." }
    else if pyTruthyOpt addr2.cep then do
      let again ← Address.sanitize_cep addr2
      if !again.1 then .ok { base with reason := "Invalid CEP." }
      else .ok { base with reason := "Insufficient address information." }
    else
      .ok { base with reason := "Insufficient address information." }
  match attempt with
  | .ok r => .ok r
  | .error (.format m) => .ok { base with reason := m }
  | .error (.inputError m) => .ok { base with reason := m }
  | .error (.request m) => .ok { base with reason := m }
  | .error e => .error e

/-- CepAPI.validate_addresses: one outcome per address, in order; an
uncaught per-record exception aborts the comprehension. -/
def CepAPI.validate_addresses (ws : String)
    (http : String → HttpResult CepResponse) (query : FetchByAddress)
    (addresses : List Address) (suggest_cep : Bool) :
    Except CepExc (List AddrOutcome) :=
  addresses.mapM (CepAPI.validate_address ws http query · suggest_cep)

/-! ### validators/phone.py -/

/-- The phonenumbers library surface used by PhoneValidator, abstracted
over its opaque parsed-number type: parse (NumberParseException becomes
an error message), is_valid_number, and whether number_type is MOBILE. -/
structure PhoneLib (P : Type) where
  parse : String → Except String P
  is_valid_number : P → Bool
  type_is_mobile : P → Bool

structure PhoneOutcome where
  phone_number : String
  valid : Bool
  possible_mobile : Bool
  reason : String
deriving DecidableEq

/-- PhoneValidator.validate_phone_numbers: parse, then validate (which
raises on invalid numbers), then compute possible_mobile; every
PhoneValueError path sets valid and possible_mobile to false. -/
def PhoneValidator.validate_phone_numbers {P : Type} (lib : PhoneLib P)
    (phone_numbers : List String) : List PhoneOutcome :=
  phone_numbers.map fun number =>
    match lib.parse number with
    | .error e =>
      { phone_number := number, valid := false, possible_mobile := false,
        reason := e }
    | .ok p =>
      if lib.is_valid_number p then
        { phone_number := number
          valid := true
          possible_mobile := lib.type_is_mobile p
          reason := "Valid phone number." }
      else
        { phone_number := number
          valid := false
          possible_mobile := false
          reason := "The provided phone number is not valid." }

/-! ### validate_customer.py -/

/-- One entry of the field-validation configuration list.  useExternal
models the dict key named external. -/
structure FieldCfg where
  name : String
  useExternal : Bool
  webservice : Option String
deriving DecidableEq

/-- Errors escaping CustomerDataValidator._check_fields: the intended
CustomerDataValidatorError, and Python AttributeError. -/
inductive CfgError where
  | configError (msg : String)
  | attributeError (msg : String)
deriving DecidableEq

/-- The class attribute CnpjAPI.available_webservices read by
_check_fields: the CnpjAPI class in cnpj.py declares no such attribute,
so the access raises AttributeError; modelled as none. -/
def CnpjAPI.available_webservices : Option (List String) := none

/-- CustomerDataValidator._check_fields.  The available_webservices
variable persists across loop iterations (it is the default-[] parameter
being reassigned); for a CEP field it is rebound to
CepAPI.available_webservices, for a CNPJ field the attribute access
fails.  Messages drop the quote characters of the f-strings. -/
def check_fields : List FieldCfg → List String → Except CfgError Unit
  | [], _ => .ok ()
  | f :: rest, avail =>
    let availE : Except CfgError (List String) :=
      if f.name = "CEP" then .ok CepAPI.available_webservices
      else if f.name = "CNPJ" then
        match CnpjAPI.available_webservices with
        | some l => .ok l
        | none =>
          .error (.attributeError
            "type object CnpjAPI has no attribute available_webservices")
      else .ok avail
    match availE with
    | .error e => .error e
    | .ok avail2 =>
      if f.useExternal && !pyTruthyOpt f.webservice then
        .error (.configError ((f.webservice.getD "None") ++
          " Web service  for " ++ f.name ++ " is not defined." ++
          "Available web services: " ++ String.intercalate ", " avail2))
      else if f.useExternal && !(avail2.contains (f.webservice.getD "")) then
        .error (.configError ("Unsupported web service " ++
          (f.webservice.getD "") ++ " for " ++ f.name ++ "." ++
          "Available web services: " ++ String.intercalate ", " avail2))
      else
        check_fields rest avail2

/-- Row lookup by key used to model the polars join: the value of the
first row of the table carrying this key, if any. -/
def joinLookup {K V : Type} [DecidableEq K] (k : K) (t : List (K × V)) :
    Option V :=
  (t.find? (fun p => p.1 = k)).map Prod.snd

/-- One polars outer join step of validate_dataset, on the id key: every
accumulated row gains one column (the looked-up value, none when absent),
and the keys of the right table not yet present are appended as new rows
whose w previous columns are all filled with the null sentinel. -/
def outerJoinStep {K V : Type} [DecidableEq K] (w : Nat)
    (acc : List (K × List (Option V))) (t : List (K × V)) :
    List (K × List (Option V)) :=
  (acc.map fun p => (p.1, p.2 ++ [joinLookup p.1 t])) ++
    ((t.filter fun q => acc.all fun p => p.1 ≠ q.1).map fun q =>
      (q.1, List.replicate w none ++ [some q.2]))

def mergeGo {K V : Type} [DecidableEq K] (acc : List (K × List (Option V))) :
    Nat → List (List (K × V)) → List (K × List (Option V))
  | _, [] => acc
  | w, t :: ts => mergeGo (outerJoinStep w acc t) (w + 1) ts

/-- The join pipeline of validate_dataset: start from the id column of
the dataset and outer-join each per-field result table in turn. -/
def mergeTables {K V : Type} [DecidableEq K] (base : List K)
    (tables : List (List (K × V))) : List (K × List (Option V)) :=
  mergeGo (base.map fun k => (k, ([] : List (Option V)))) 0 tables

/-- The field names the validate_dataset loop dispatches on. -/
def dispatchedFieldNames : List String := ["cep", "cpf", "cnpj", "phone", "email"]

/-- CustomerDataValidator.validate_dataset: select the id column, run
_check_fields (fail-fast, before any per-field validation), then
outer-join the per-field result tables.  The per-field validators, which
drive the network-backed record loops, are abstracted as the fieldTable
parameter mapping a recognized field configuration to its result
table. -/
def validate_dataset {K V : Type} [DecidableEq K] (fields : List FieldCfg)
    (ids : List K) (fieldTable : FieldCfg → List (K × V)) :
    Except CfgError (List (K × List (Option V))) := do
  check_fields fields []
  .ok (mergeTables ids
    ((fields.filter fun f => dispatchedFieldNames.contains (pyLower f.name)).map
      fieldTable))

/-! ### Auxiliary definitions for the statements -/

/-- Whether an Except value is a success. -/
def isOkE {ε α : Type} : Except ε α → Bool
  | .ok _ => true
  | .error _ => false

/-- Separator stripping as the spec describes it, for refinement
comparison only: the spec says sanitize strips dots, dashes, slashes and
spaces, for every identifier type. -/
def spec_strip (raw : String) : String :=
  stripChars ['.', '-', '/', ' '] raw

/-- Exceptions of the cep module whose message (the str(e) a caught
handler stores as the reason) is non-empty; KeyError/TypeError are never
caught, so no constraint is placed on them. -/
def CepExc.msgNonempty : CepExc → Prop
  | .format m => m ≠ ""
  | .inputError m => m ≠ ""
  | .request m => m ≠ ""
  | .keyError _ => True
  | .typeError _ => True

/-! ### Lemmas about the SequenceMatcher core -/

theorem commonRunLen_le_left : ∀ a b : List Char, commonRunLen a b ≤ a.length
  | [], _ => by simp [commonRunLen]
  | _ :: _, [] => by simp [commonRunLen]
  | x :: xs, y :: ys => by
    unfold commonRunLen
    split
    · have := commonRunLen_le_left xs ys
      simpa using Nat.succ_le_succ this
    · simp

theorem commonRunLen_le_right : ∀ a b : List Char, commonRunLen a b ≤ b.length
  | [], _ => by simp [commonRunLen]
  | _ :: _, [] => by simp [commonRunLen]
  | x :: xs, y :: ys => by
    unfold commonRunLen
    split
    · have := commonRunLen_le_right xs ys
      simpa using Nat.succ_le_succ this
    · simp

theorem commonRunLen_self : ∀ a : List Char, commonRunLen a a = a.length
  | [] => rfl
  | x :: xs => by simp [commonRunLen, commonRunLen_self xs]

theorem foldl_betterBlock_mem :
    ∀ (l : List (ℕ × ℕ × ℕ)) (init : ℕ × ℕ × ℕ),
      l.foldl betterBlock init = init ∨ l.foldl betterBlock init ∈ l := by
  intro l
  induction l with
  | nil => intro init; left; rfl
  | cons c l ih =>
    intro init
    rw [List.foldl_cons]
    rcases ih (betterBlock init c) with h | h
    · rw [h]
      unfold betterBlock
      split
      · right; exact List.mem_cons_self _ _
      · left; rfl
    · right; exact List.mem_cons_of_mem _ h

theorem foldl_betterBlock_ge_init :
    ∀ (l : List (ℕ × ℕ × ℕ)) (init : ℕ × ℕ × ℕ),
      init.2.2 ≤ (l.foldl betterBlock init).2.2 := by
  intro l
  induction l with
  | nil => intro init; exact le_rfl
  | cons c l ih =>
    intro init
    rw [List.foldl_cons]
    refine le_trans ?_ (ih (betterBlock init c))
    unfold betterBlock
    split
    · omega
    · exact le_rfl

theorem foldl_betterBlock_ge_mem :
    ∀ (l : List (ℕ × ℕ × ℕ)) (init c : ℕ × ℕ × ℕ), c ∈ l →
      c.2.2 ≤ (l.foldl betterBlock init).2.2 := by
  intro l
  induction l with
  | nil => intro _ _ h; cases h
  | cons d l ih =>
    intro init c hc
    rw [List.foldl_cons]
    rcases List.mem_cons.mp hc with rfl | hc
    · refine le_trans ?_ (foldl_betterBlock_ge_init l (betterBlock init c))
      unfold betterBlock
      split
      · exact le_rfl
      · omega
    · exact ih (betterBlock init d) c hc

theorem mem_candidateBlocks {a b : List Char} {c : ℕ × ℕ × ℕ}
    (h : c ∈ candidateBlocks a b) :
    c.1 < a.length ∧ c.2.1 < b.length ∧
      c.2.2 = commonRunLen (a.drop c.1) (b.drop c.2.1) := by
  simp only [candidateBlocks, List.mem_flatMap, List.mem_map,
    List.mem_range] at h
  obtain ⟨i, hi, j, hj, rfl⟩ := h
  exact ⟨hi, hj, rfl⟩

theorem candidateBlock_self_mem {a : List Char} (h : a ≠ []) :
    ((0, 0, a.length) : ℕ × ℕ × ℕ) ∈ candidateBlocks a a := by
  have hl : 0 < a.length := List.length_pos.mpr h
  simp only [candidateBlocks, List.mem_flatMap, List.mem_map, List.mem_range]
  exact ⟨0, hl, 0, hl, by simp [commonRunLen_self]⟩

theorem matchTotalF_succ (fuel : ℕ) (a b : List Char) :
    matchTotalF (fuel + 1) a b =
      if (find_longest_match a b).2.2 = 0 then 0
      else
        matchTotalF fuel (a.take (find_longest_match a b).1)
            (b.take (find_longest_match a b).2.1) +
          (find_longest_match a b).2.2 +
          matchTotalF fuel
            (a.drop ((find_longest_match a b).1 + (find_longest_match a b).2.2))
            (b.drop ((find_longest_match a b).2.1 + (find_longest_match a b).2.2)) :=
  rfl

theorem find_longest_match_self {a : List Char} (h : a ≠ []) :
    find_longest_match a a = (0, 0, a.length) := by
  have hl : 0 < a.length := List.length_pos.mpr h
  have hub : a.length ≤ (find_longest_match a a).2.2 :=
    foldl_betterBlock_ge_mem _ _ _ (candidateBlock_self_mem h)
  rcases foldl_betterBlock_mem (candidateBlocks a a) (0, 0, 0) with h0 | hmem
  · exfalso
    have h00 : (find_longest_match a a).2.2 = 0 := by
      show (List.foldl betterBlock (0, 0, 0) (candidateBlocks a a)).2.2 = 0
      rw [h0]
    omega
  · have hmem' : find_longest_match a a ∈ candidateBlocks a a := hmem
    rcases hfm : find_longest_match a a with ⟨i, j, k⟩
    rw [hfm] at hmem' hub
    obtain ⟨hi, hj, hk⟩ := mem_candidateBlocks hmem'
    simp only at hi hj hk hub
    have hka := commonRunLen_le_left (a.drop i) (a.drop j)
    have hkb := commonRunLen_le_right (a.drop i) (a.drop j)
    rw [List.length_drop] at hka hkb
    rw [← hk] at hka hkb
    have hi0 : i = 0 := by omega
    have hj0 : j = 0 := by omega
    subst hi0; subst hj0
    have hkv : k = a.length := by
      rw [hk]
      simp [commonRunLen_self]
    rw [hkv]

theorem matchTotalF_nil_left : ∀ (fuel : ℕ) (b : List Char),
    matchTotalF fuel [] b = 0
  | 0, _ => rfl
  | _ + 1, _ => rfl

theorem matchTotalF_le :
    ∀ (fuel : ℕ) (a b : List Char),
      matchTotalF fuel a b ≤ a.length ∧ matchTotalF fuel a b ≤ b.length := by
  intro fuel
  induction fuel with
  | zero => intro a b; exact ⟨Nat.zero_le _, Nat.zero_le _⟩
  | succ fuel ih =>
    intro a b
    rw [matchTotalF_succ]
    rcases foldl_betterBlock_mem (candidateBlocks a b) (0, 0, 0) with h0 | hmem
    · have h00 : (find_longest_match a b).2.2 = 0 := by
        show (List.foldl betterBlock (0, 0, 0) (candidateBlocks a b)).2.2 = 0
        rw [h0]
      rw [if_pos h00]
      exact ⟨Nat.zero_le _, Nat.zero_le _⟩
    · have hmem' : find_longest_match a b ∈ candidateBlocks a b := hmem
      obtain ⟨hi, hj, hk⟩ := mem_candidateBlocks hmem'
      have hka := commonRunLen_le_left (a.drop (find_longest_match a b).1)
        (b.drop (find_longest_match a b).2.1)
      have hkb := commonRunLen_le_right (a.drop (find_longest_match a b).1)
        (b.drop (find_longest_match a b).2.1)
      rw [List.length_drop] at hka hkb
      rw [← hk] at hka hkb
      have h1 := ih (a.take (find_longest_match a b).1)
        (b.take (find_longest_match a b).2.1)
      have h2 := ih
        (a.drop ((find_longest_match a b).1 + (find_longest_match a b).2.2))
        (b.drop ((find_longest_match a b).2.1 + (find_longest_match a b).2.2))
      simp only [List.length_take, List.length_drop] at h1 h2
      have h11 := h1.1
      have h12 := h1.2
      have h21 := h2.1
      have h22 := h2.2
      split
      · exact ⟨Nat.zero_le _, Nat.zero_le _⟩
      · constructor
        · omega
        · omega

theorem matchTotal_le_left (a b : List Char) : matchTotal a b ≤ a.length :=
  (matchTotalF_le _ a b).1

theorem matchTotal_le_right (a b : List Char) : matchTotal a b ≤ b.length :=
  (matchTotalF_le _ a b).2

theorem matchTotal_self (a : List Char) : matchTotal a a = a.length := by
  cases a with
  | nil => rfl
  | cons x t =>
    have hne : (x :: t) ≠ ([] : List Char) := by simp
    have hm := find_longest_match_self hne
    show matchTotalF (x :: t).length (x :: t) (x :: t) = (x :: t).length
    rw [List.length_cons, matchTotalF_succ, hm]
    rw [if_neg (by simp)]
    simp [matchTotalF_nil_left, List.drop_length]

theorem pyRatio_nonneg (s t : String) : 0 ≤ pyRatio s t := by
  unfold pyRatio
  split
  · norm_num
  · positivity

theorem pyRatio_le_one (s t : String) : pyRatio s t ≤ 1 := by
  unfold pyRatio
  split
  · norm_num
  · next h =>
    have hpos : (0 : ℚ) < (s.data.length : ℚ) + (t.data.length : ℚ) := by
      have hn : 0 < s.data.length + t.data.length := Nat.pos_of_ne_zero h
      exact_mod_cast hn
    rw [div_le_one hpos]
    have h1 := matchTotal_le_left s.data t.data
    have h2 := matchTotal_le_right s.data t.data
    have h1q : (matchTotal s.data t.data : ℚ) ≤ s.data.length := by
      exact_mod_cast h1
    have h2q : (matchTotal s.data t.data : ℚ) ≤ t.data.length := by
      exact_mod_cast h2
    linarith

theorem pyRatio_self (s : String) : pyRatio s s = 1 := by
  unfold pyRatio
  split
  · rfl
  · next h =>
    rw [matchTotal_self]
    have hlen : s.data.length ≠ 0 := by omega
    have hq : (0 : ℚ) < (s.data.length : ℚ) := by
      exact_mod_cast Nat.pos_of_ne_zero hlen
    rw [two_mul]
    exact div_self (by linarith)

theorem pyRound3_nonneg {q : ℚ} (h : 0 ≤ q) : 0 ≤ pyRound3 q := by
  unfold pyRound3
  have h1 : (0 : ℤ) ≤ round (q * 1000) := by
    rw [round_eq]
    rw [Int.floor_nonneg]
    linarith
  positivity

theorem pyRound3_le_one {q : ℚ} (h : q ≤ 1) : pyRound3 q ≤ 1 := by
  unfold pyRound3
  rw [div_le_one (by norm_num)]
  have h1 : round (q * 1000) ≤ round ((1000 : ℤ) : ℚ) := by
    rw [round_eq, round_eq]
    apply Int.floor_mono
    push_cast
    linarith
  rw [round_intCast] at h1
  exact_mod_cast h1

theorem pyRound3_one : pyRound3 1 = 1 := by
  unfold pyRound3
  have : ((1 : ℚ) * 1000) = ((1000 : ℤ) : ℚ) := by norm_num
  rw [this, round_intCast]
  norm_num

theorem comparableRatios_bounds (a1 a2 : Address) :
    ∀ x ∈ comparableRatios a1 a2, 0 ≤ x ∧ x ≤ 1 := by
  intro x hx
  simp only [comparableRatios, List.mem_filterMap] at hx
  obtain ⟨p, _, hp⟩ := hx
  split at hp
  · cases hp
    exact ⟨pyRatio_nonneg _ _, pyRatio_le_one _ _⟩
  · cases hp

theorem comparableRatios_self_all_one (a : Address) :
    ∀ x ∈ comparableRatios a a, x = 1 := by
  unfold comparableRatios
  generalize a.attrValues = l
  induction l with
  | nil => simp
  | cons v t ih =>
    rw [List.zip_cons_cons, List.filterMap_cons]
    split
    · exact ih
    · next b heq =>
      intro x hx
      rcases List.mem_cons.mp hx with rfl | hx
      · split at heq
        · cases heq
          exact pyRatio_self _
        · cases heq
      · exact ih x hx

theorem list_sum_nonneg_q {l : List ℚ} (h : ∀ x ∈ l, 0 ≤ x) : 0 ≤ l.sum := by
  induction l with
  | nil => simp
  | cons x t ih =>
    rw [List.sum_cons]
    have hx := h x (List.mem_cons_self _ _)
    have ht := ih fun y hy => h y (List.mem_cons_of_mem _ hy)
    linarith

theorem list_sum_le_length_q {l : List ℚ} (h : ∀ x ∈ l, x ≤ 1) :
    l.sum ≤ l.length := by
  induction l with
  | nil => simp
  | cons x t ih =>
    rw [List.sum_cons, List.length_cons]
    have hx := h x (List.mem_cons_self _ _)
    have ht := ih fun y hy => h y (List.mem_cons_of_mem _ hy)
    push_cast
    linarith

theorem list_sum_all_one_q {l : List ℚ} (h : ∀ x ∈ l, x = 1) :
    l.sum = l.length := by
  induction l with
  | nil => simp
  | cons x t ih =>
    rw [List.sum_cons, List.length_cons]
    have hx := h x (List.mem_cons_self _ _)
    have ht := ih fun y hy => h y (List.mem_cons_of_mem _ hy)
    push_cast
    linarith

/-! ### Lemmas about the stable descending sort -/

theorem insertScoredDesc_perm (x : ScoredAddress) :
    ∀ l : List ScoredAddress, (insertScoredDesc x l).Perm (x :: l) := by
  intro l
  induction l with
  | nil => exact List.Perm.refl _
  | cons y ys ih =>
    unfold insertScoredDesc
    split
    · exact ((ih.cons y).trans (List.Perm.swap x y ys))
    · exact List.Perm.refl _

theorem insertScoredDesc_sorted (x : ScoredAddress) :
    ∀ l : List ScoredAddress,
      l.Pairwise (fun a b => b.similarity_ratio ≤ a.similarity_ratio) →
      (insertScoredDesc x l).Pairwise
        (fun a b => b.similarity_ratio ≤ a.similarity_ratio) := by
  intro l
  induction l with
  | nil => intro _; simp [insertScoredDesc]
  | cons y ys ih =>
    intro h
    rw [List.pairwise_cons] at h
    obtain ⟨hy, hys⟩ := h
    unfold insertScoredDesc
    split
    · next hle =>
      rw [List.pairwise_cons]
      constructor
      · intro z hz
        rcases List.mem_cons.mp ((insertScoredDesc_perm x ys).mem_iff.mp hz) with
          rfl | hzys
        · exact hle
        · exact hy z hzys
      · exact ih hys
    · next hgt =>
      push_neg at hgt
      rw [List.pairwise_cons]
      constructor
      · intro z hz
        rcases List.mem_cons.mp hz with rfl | hzys
        · exact le_of_lt hgt
        · exact le_trans (hy z hzys) (le_of_lt hgt)
      · exact List.pairwise_cons.mpr ⟨hy, hys⟩

theorem insertScoredDesc_filter_ne (x : ScoredAddress) (q : ℚ)
    (hx : x.similarity_ratio ≠ q) :
    ∀ l : List ScoredAddress,
      (insertScoredDesc x l).filter (scoreIs q) = l.filter (scoreIs q) := by
  intro l
  induction l with
  | nil =>
    simp [insertScoredDesc, List.filter, scoreIs, hx]
  | cons y ys ih =>
    unfold insertScoredDesc
    split
    · rw [List.filter_cons, List.filter_cons, ih]
    · rw [List.filter_cons, List.filter_cons]
      have : scoreIs q x = false := by simp [scoreIs, hx]
      rw [this]
      simp

theorem insertScoredDesc_filter_eq (x : ScoredAddress) (q : ℚ)
    (hx : x.similarity_ratio = q) :
    ∀ l : List ScoredAddress,
      l.Pairwise (fun a b => b.similarity_ratio ≤ a.similarity_ratio) →
      (insertScoredDesc x l).filter (scoreIs q) =
        l.filter (scoreIs q) ++ [x] := by
  intro l
  induction l with
  | nil =>
    intro _
    simp [insertScoredDesc, List.filter, scoreIs, hx]
  | cons y ys ih =>
    intro hsort
    rw [List.pairwise_cons] at hsort
    obtain ⟨hy, hys⟩ := hsort
    unfold insertScoredDesc
    split
    · next hle =>
      rw [List.filter_cons, List.filter_cons, ih hys]
      split
      · rw [List.cons_append]
      · rfl
    · next hgt =>
      push_neg at hgt
      have hxq : scoreIs q x = true := by simp [scoreIs, hx]
      rw [List.filter_cons, hxq]
      have hnil : (y :: ys).filter (scoreIs q) = [] := by
        rw [List.filter_eq_nil_iff]
        intro z hz
        simp only [scoreIs, decide_eq_true_eq]
        intro hc
        rw [hx] at hgt
        rcases List.mem_cons.mp hz with rfl | hzys
        · rw [hc] at hgt; exact lt_irrefl _ hgt
        · have h1 := hy z hzys
          rw [hc] at h1
          exact absurd (lt_of_lt_of_le hgt h1) (lt_irrefl _)
      rw [hnil]
      simp

theorem sortScoredDesc_go :
    ∀ (l acc : List ScoredAddress),
      acc.Pairwise (fun a b => b.similarity_ratio ≤ a.similarity_ratio) →
      (l.foldl (fun acc x => insertScoredDesc x acc) acc).Pairwise
          (fun a b => b.similarity_ratio ≤ a.similarity_ratio) ∧
        (l.foldl (fun acc x => insertScoredDesc x acc) acc).Perm (acc ++ l) ∧
        ∀ q, (l.foldl (fun acc x => insertScoredDesc x acc) acc).filter
            (scoreIs q) =
          acc.filter (scoreIs q) ++ l.filter (scoreIs q) := by
  intro l
  induction l with
  | nil =>
    intro acc hacc
    refine ⟨hacc, by simp, fun q => by simp⟩
  | cons x xs ih =>
    intro acc hacc
    rw [List.foldl_cons]
    obtain ⟨hs, hp, hf⟩ := ih (insertScoredDesc x acc)
      (insertScoredDesc_sorted x acc hacc)
    refine ⟨hs, ?_, ?_⟩
    · refine hp.trans ?_
      have h1 : (insertScoredDesc x acc).Perm (x :: acc) :=
        insertScoredDesc_perm x acc
      refine (h1.append_right xs).trans ?_
      rw [List.cons_append]
      exact (List.perm_middle).symm
    · intro q
      rw [hf q, List.filter_cons]
      by_cases hxq : x.similarity_ratio = q
      · rw [insertScoredDesc_filter_eq x q hxq acc hacc]
        have : scoreIs q x = true := by simp [scoreIs, hxq]
        rw [this]
        simp
      · rw [insertScoredDesc_filter_ne x q hxq acc]
        have : scoreIs q x = false := by simp [scoreIs, hxq]
        rw [this]
        simp

theorem sortScoredDesc_spec (l : List ScoredAddress) :
    (sortScoredDesc l).Pairwise
        (fun a b => b.similarity_ratio ≤ a.similarity_ratio) ∧
      (sortScoredDesc l).Perm l ∧
      ∀ q, (sortScoredDesc l).filter (scoreIs q) = l.filter (scoreIs q) := by
  obtain ⟨hs, hp, hf⟩ := sortScoredDesc_go l [] (List.Pairwise.nil)
  exact ⟨hs, by simpa using hp, fun q => by simpa using hf q⟩

/-! ### Lemmas about the outer-join merge -/

theorem getElem?_replicate_concat {α : Type} (n : ℕ) (x a : α) :
    (List.replicate n x ++ [a])[n]? = some a := by
  have h := List.getElem?_concat_length (List.replicate n x) a
  rwa [List.length_replicate] at h

theorem joinLookup_cons {K V : Type} [DecidableEq K] (k : K) (p : K × V)
    (rest : List (K × V)) :
    joinLookup k (p :: rest) =
      if p.1 = k then some p.2 else joinLookup k rest := by
  rw [joinLookup, joinLookup]
  by_cases h : p.1 = k
  · rw [List.find?_cons_of_pos _ (by simpa using h), if_pos h]
    rfl
  · rw [List.find?_cons_of_neg _ (by simpa using h), if_neg h]

theorem joinLookup_mem {K V : Type} [DecidableEq K] {k : K} {t : List (K × V)}
    {v : V} (h : joinLookup k t = some v) : (k, v) ∈ t := by
  induction t with
  | nil => cases h
  | cons p rest ih =>
    rw [joinLookup_cons] at h
    split at h
    · next hpk =>
      cases h
      rw [← hpk]
      exact List.mem_cons_self _ _
    · exact List.mem_cons_of_mem _ (ih h)

theorem joinLookup_eq_none {K V : Type} [DecidableEq K] {k : K}
    {t : List (K × V)} (h : k ∉ t.map Prod.fst) : joinLookup k t = none := by
  induction t with
  | nil => rfl
  | cons p rest ih =>
    rw [List.map_cons, List.mem_cons] at h
    push_neg at h
    rw [joinLookup_cons, if_neg (fun hc => h.1 hc.symm)]
    exact ih h.2

theorem joinLookup_of_mem_nodup {K V : Type} [DecidableEq K] {k : K} {v : V}
    {t : List (K × V)} (hnd : (t.map Prod.fst).Nodup) (hm : (k, v) ∈ t) :
    joinLookup k t = some v := by
  induction t with
  | nil => cases hm
  | cons p rest ih =>
    rw [List.map_cons, List.nodup_cons] at hnd
    obtain ⟨hp1, hnd'⟩ := hnd
    rw [joinLookup_cons]
    rcases List.mem_cons.mp hm with heq | hm'
    · rw [if_pos (by rw [← heq])]
      rw [← heq]
    · have hk : k ∈ rest.map Prod.fst := List.mem_map.mpr ⟨(k, v), hm', rfl⟩
      have hne : ¬ (p.1 = k) := by
        intro hc
        apply hp1
        rw [hc]
        exact hk
      rw [if_neg hne]
      exact ih hnd' hm'

theorem outerJoinStep_keys {K V : Type} [DecidableEq K] (w : ℕ)
    (acc : List (K × List (Option V))) (t : List (K × V)) (k : K) :
    k ∈ (outerJoinStep w acc t).map Prod.fst ↔
      k ∈ acc.map Prod.fst ∨ k ∈ t.map Prod.fst := by
  unfold outerJoinStep
  rw [List.map_append, List.mem_append]
  constructor
  · rintro (h | h)
    · left
      simpa [List.map_map, Function.comp] using h
    · right
      simp only [List.map_map, List.mem_map, Function.comp] at h
      obtain ⟨q, hq, rfl⟩ := h
      exact List.mem_map.mpr ⟨q, (List.mem_filter.mp hq).1, rfl⟩
  · intro h
    by_cases hacc : k ∈ acc.map Prod.fst
    · left
      simpa [List.map_map, Function.comp] using hacc
    · rcases h with h | h
      · exact absurd h hacc
      · right
        obtain ⟨q, hq, rfl⟩ := List.mem_map.mp h
        simp only [List.map_map, List.mem_map, Function.comp]
        refine ⟨q, List.mem_filter.mpr ⟨hq, ?_⟩, rfl⟩
        rw [List.all_eq_true]
        intro p hp
        simp only [decide_eq_true_eq]
        exact fun hc => hacc (List.mem_map.mpr ⟨p, hp, hc⟩)

theorem outerJoinStep_keys_nodup {K V : Type} [DecidableEq K] {w : ℕ}
    {acc : List (K × List (Option V))} {t : List (K × V)}
    (hacc : (acc.map Prod.fst).Nodup) (ht : (t.map Prod.fst).Nodup) :
    ((outerJoinStep w acc t).map Prod.fst).Nodup := by
  unfold outerJoinStep
  rw [List.map_append]
  refine List.Nodup.append ?_ ?_ ?_
  · simpa [List.map_map, Function.comp] using hacc
  · have hsub : ((t.filter fun q => acc.all fun p => p.1 ≠ q.1).map Prod.fst).Sublist
        (t.map Prod.fst) := (List.filter_sublist t).map Prod.fst
    have hnd := hsub.nodup ht
    simpa [List.map_map, Function.comp] using hnd
  · intro k hk1 hk2
    simp only [List.map_map, List.mem_map, Function.comp] at hk1 hk2
    obtain ⟨p, hp, rfl⟩ := hk1
    obtain ⟨q, hq, hqk⟩ := hk2
    obtain ⟨hqt, hqc⟩ := List.mem_filter.mp hq
    rw [List.all_eq_true] at hqc
    have := hqc p hp
    simp only [decide_eq_true_eq] at this
    exact this hqk.symm

theorem outerJoinStep_cols {K V : Type} [DecidableEq K]
    {done : List (List (K × V))} {acc : List (K × List (Option V))}
    {t : List (K × V)} (hnd_t : (t.map Prod.fst).Nodup)
    (hcols : ∀ p ∈ acc, p.2.length = done.length ∧
      ∀ (i : ℕ) (t' : List (K × V)), done[i]? = some t' →
        p.2[i]? = some (joinLookup p.1 t'))
    (habs : ∀ k, k ∉ acc.map Prod.fst → ∀ t' ∈ done, joinLookup k t' = none) :
    ∀ p ∈ outerJoinStep done.length acc t,
      p.2.length = (done ++ [t]).length ∧
      ∀ (i : ℕ) (t' : List (K × V)), (done ++ [t])[i]? = some t' →
        p.2[i]? = some (joinLookup p.1 t') := by
  intro p' hp'
  unfold outerJoinStep at hp'
  rw [List.mem_append] at hp'
  rcases hp' with hA | hB
  · obtain ⟨p, hp, rfl⟩ := List.mem_map.mp hA
    obtain ⟨hlen, hidx⟩ := hcols p hp
    constructor
    · simp [hlen]
    · intro i t' hit
      rcases lt_trichotomy i done.length with hlt | heq | hgt
      · rw [List.getElem?_append_left hlt] at hit
        rw [List.getElem?_append_left (by rw [hlen]; exact hlt)]
        exact hidx i t' hit
      · subst heq
        rw [List.getElem?_append_right (le_refl _), Nat.sub_self] at hit
        simp only [List.getElem?_cons_zero, Option.some.injEq] at hit
        subst hit
        rw [← hlen]
        exact List.getElem?_concat_length _ _
      · exfalso
        rw [List.getElem?_eq_none (by simp; omega)] at hit
        cases hit
  · obtain ⟨q, hq, rfl⟩ := List.mem_map.mp hB
    obtain ⟨hqt, hqc⟩ := List.mem_filter.mp hq
    have hqk : q.1 ∉ acc.map Prod.fst := by
      intro hc
      obtain ⟨p, hp, hpk⟩ := List.mem_map.mp hc
      rw [List.all_eq_true] at hqc
      have := hqc p hp
      simp only [decide_eq_true_eq] at this
      exact this hpk
    constructor
    · simp
    · intro i t' hit
      rcases lt_trichotomy i done.length with hlt | heq | hgt
      · rw [List.getElem?_append_left hlt] at hit
        have hmem : t' ∈ done := by
          have hn : i < done.length := hlt
          rw [List.getElem?_eq_getElem hn] at hit
          cases hit
          exact List.getElem_mem hn
        rw [habs q.1 hqk t' hmem]
        rw [List.getElem?_append_left
          (by rw [List.length_replicate]; exact hlt)]
        simp [hlt]
      · subst heq
        rw [List.getElem?_append_right (le_refl _), Nat.sub_self] at hit
        simp only [List.getElem?_cons_zero, Option.some.injEq] at hit
        subst hit
        rw [joinLookup_of_mem_nodup hnd_t hqt]
        exact getElem?_replicate_concat _ _ _
      · exfalso
        rw [List.getElem?_eq_none (by simp; omega)] at hit
        cases hit

theorem outerJoinStep_absent {K V : Type} [DecidableEq K]
    {done : List (List (K × V))} {acc : List (K × List (Option V))}
    {t : List (K × V)}
    (habs : ∀ k, k ∉ acc.map Prod.fst → ∀ t' ∈ done, joinLookup k t' = none) :
    ∀ k, k ∉ (outerJoinStep done.length acc t).map Prod.fst →
      ∀ t' ∈ done ++ [t], joinLookup k t' = none := by
  intro k hk t' ht'
  have hknacc : k ∉ acc.map Prod.fst := fun h =>
    hk ((outerJoinStep_keys _ _ _ _).mpr (Or.inl h))
  have hknt : k ∉ t.map Prod.fst := fun h =>
    hk ((outerJoinStep_keys _ _ _ _).mpr (Or.inr h))
  rcases List.mem_append.mp ht' with hd | hsing
  · exact habs k hknacc t' hd
  · rw [List.mem_singleton] at hsing
    subst hsing
    exact joinLookup_eq_none hknt

theorem mergeGo_spec {K V : Type} [DecidableEq K] :
    ∀ (ts : List (List (K × V))) (done : List (List (K × V)))
      (acc : List (K × List (Option V))),
      (acc.map Prod.fst).Nodup →
      (∀ p ∈ acc, p.2.length = done.length ∧
        ∀ (i : ℕ) (t' : List (K × V)), done[i]? = some t' →
          p.2[i]? = some (joinLookup p.1 t')) →
      (∀ k, k ∉ acc.map Prod.fst → ∀ t' ∈ done, joinLookup k t' = none) →
      (∀ t ∈ ts, (t.map Prod.fst).Nodup) →
      ((mergeGo acc done.length ts).map Prod.fst).Nodup ∧
      (∀ k, k ∈ (mergeGo acc done.length ts).map Prod.fst ↔
        k ∈ acc.map Prod.fst ∨ ∃ t ∈ ts, k ∈ t.map Prod.fst) ∧
      (∀ p ∈ mergeGo acc done.length ts, p.2.length = (done ++ ts).length ∧
        ∀ (i : ℕ) (t' : List (K × V)), (done ++ ts)[i]? = some t' →
          p.2[i]? = some (joinLookup p.1 t')) := by
  intro ts
  induction ts with
  | nil =>
    intro done acc hnd hcols habs _
    refine ⟨hnd, fun k => by simp [mergeGo], ?_⟩
    intro p hp
    rw [List.append_nil]
    exact hcols p hp
  | cons t ts ih =>
    intro done acc hnd hcols habs hts
    have hnd_t : (t.map Prod.fst).Nodup := hts t (List.mem_cons_self _ _)
    have hts' : ∀ t' ∈ ts, (t'.map Prod.fst).Nodup :=
      fun t' ht' => hts t' (List.mem_cons_of_mem _ ht')
    have hstep_nd := outerJoinStep_keys_nodup (w := done.length)
      (t := t) hnd hnd_t
    have hstep_cols := outerJoinStep_cols hnd_t hcols habs
    have hstep_abs := outerJoinStep_absent (t := t) habs
    have hlen1 : (done ++ [t]).length = done.length + 1 := by simp
    have hmg : mergeGo acc done.length (t :: ts) =
        mergeGo (outerJoinStep done.length acc t) ((done ++ [t]).length) ts := by
      rw [hlen1]
      rfl
    rw [hmg]
    obtain ⟨h1, h2, h3⟩ := ih (done ++ [t]) (outerJoinStep done.length acc t)
      hstep_nd hstep_cols hstep_abs hts'
    refine ⟨h1, ?_, ?_⟩
    · intro k
      rw [h2 k, outerJoinStep_keys]
      constructor
      · rintro ((h | h) | ⟨t', ht', hk⟩)
        · exact Or.inl h
        · exact Or.inr ⟨t, List.mem_cons_self _ _, h⟩
        · exact Or.inr ⟨t', List.mem_cons_of_mem _ ht', hk⟩
      · rintro (h | ⟨t', ht', hk⟩)
        · exact Or.inl (Or.inl h)
        · rcases List.mem_cons.mp ht' with rfl | ht''
          · exact Or.inl (Or.inr hk)
          · exact Or.inr ⟨t', ht'', hk⟩
    · intro p hp
      have h4 := h3 p hp
      have heq : done ++ t :: ts = (done ++ [t]) ++ ts := by simp
      rw [heq]
      exact h4

/-! ### Lemmas about error messages and validate_address paths -/

theorem append_ne_empty_left {a : String} (h : a ≠ "") (b : String) :
    a ++ b ≠ "" := by
  intro hc
  apply h
  have hd : (a ++ b).data = [] := by rw [hc]
  rw [String.data_append a b] at hd
  exact String.ext (List.append_eq_nil.mp hd).1

theorem sanitize_cep_raw_error_msg {c : Option String} {e : CepExc}
    (h : Address.sanitize_cep_raw c = .error e) :
    ∃ m, e = .format m ∧ m ≠ "" := by
  unfold Address.sanitize_cep_raw at h
  dsimp only at h
  split at h
  · cases h
    exact ⟨_, rfl, by decide⟩
  · split at h
    · cases h
      exact ⟨_, rfl, append_ne_empty_left
        (append_ne_empty_left (by decide) _) _⟩
    · split at h
      · cases h
        exact ⟨_, rfl, append_ne_empty_left
          (append_ne_empty_left (by decide) _) _⟩
      · cases h

theorem sanitize_cep_error_msg {a : Address} {e : CepExc}
    (h : Address.sanitize_cep a = .error e) : ∃ m, e = .format m ∧ m ≠ "" := by
  unfold Address.sanitize_cep at h
  rcases hs : Address.sanitize_cep_raw a.cep with e' | s
  · rw [hs] at h
    simp only [Bind.bind, Except.bind] at h
    cases h
    exact sanitize_cep_raw_error_msg hs
  · rw [hs] at h
    simp only [Bind.bind, Except.bind] at h
    cases h

theorem sanitize_cep_ok_true {a : Address} {ba : Bool × Address}
    (h : Address.sanitize_cep a = .ok ba) : ba.1 = true := by
  unfold Address.sanitize_cep at h
  rcases hs : Address.sanitize_cep_raw a.cep with e' | s
  · rw [hs] at h
    simp only [Bind.bind, Except.bind] at h
    cases h
  · rw [hs] at h
    simp only [Bind.bind, Except.bind] at h
    cases h
    rfl

theorem fetch_by_cep_error_msg {ws : String}
    {http : String → HttpResult CepResponse} {c : String} {e : CepExc}
    (h : CepAPI.fetch_by_cep ws http c = .error e) :
    ∃ m, e = .request m ∧ m ≠ "" := by
  unfold CepAPI.fetch_by_cep at h
  dsimp only at h
  split at h
  · cases h
    exact ⟨_, rfl, append_ne_empty_left (append_ne_empty_left
      (append_ne_empty_left (append_ne_empty_left
        (append_ne_empty_left (by decide) _) _) _) _) _⟩
  · split at h
    · cases h
      exact ⟨_, rfl, append_ne_empty_left (append_ne_empty_left
        (append_ne_empty_left (append_ne_empty_left (by decide) _) _) _) _⟩
    · cases h

/-! ### Claims -/

/-- Claim C1.  The claim says a backend record whose normalized CNPJ
differs from the queried code yields valid=false with a not-found
reason.  In the code the not-found assignment is immediately overwritten
(cnpj.py lines 131-138 lack an early return): below, the checksum oracle
passes, the backend responds 200 with an unrelated record, _cnpj_match
is false, and validate_cnpj still returns valid=true with reason
"Valid CNPJ.". -/
theorem C1_cnpj_mismatch_outcome_overwritten :
    CnpjAPI.cnpj_match "brasilapi" "11222333000181"
      { cnpj := "99999999000199" } = .ok false ∧
    CnpjAPI.validate_cnpj (fun _ => true) "brasilapi"
      (fun _ => .response 200 { cnpj := "99999999000199" }) "11222333000181" =
      { cnpj := "11222333000181", valid := true, reason := "Valid CNPJ.",
        company_info := some { cnpj := "99999999000199" } } :=
  ⟨rfl, rfl⟩

/-- Claim C2.  Scenario 3 of the spec: postal code unset, street, city
and region present, free-text backend (viacep) returning two candidates
that score 0.8 and 0.0.  In the code Address.sanitize_cep raises
CEPFormatError on the unset code before the free-text elif branch can
run, so validate_address returns valid=false with reason
"CEP cannot be empty." no matter what the query would return; the last
two conjuncts check that the two candidates would indeed score 0.8 and
0.0 against the target. -/
theorem C2_free_text_branch_unreachable :
    CepAPI.validate_address "viacep"
      (fun _ => .response 200 { cep := some "01001000" })
      (fun _ _ _ => .ok
        [{ cep := some "01001000", logradouro := some "Rua B" },
         { cep := some "02002000", logradouro := some "ZZZZZ" }])
      { street := some "Rua A", city := some "SAO PAULO", state := some "SP" }
      false =
      .ok { address := { street := some "Rua A"
                         city := some "SAO PAULO"
                         state := some "SP" }
            valid := false
            reason := "CEP cannot be empty." } ∧
    CepAPI.compute_similarity
      { street := some "Rua A", city := some "SAO PAULO", state := some "SP" }
      { cep := some "01001000", street := some "Rua B" } = 4 / 5 ∧
    CepAPI.compute_similarity
      { street := some "Rua A", city := some "SAO PAULO", state := some "SP" }
      { cep := some "02002000", street := some "ZZZZZ" } = 0 :=
  ⟨rfl, by set_option maxRecDepth 10000 in with_unfolding_all decide,
   by set_option maxRecDepth 10000 in with_unfolding_all decide⟩

/-- Claim C4 counterexample.  The claim says a RequestError propagates
out of the per-record validation and aborts the remaining field-pass.
With a backend whose every request fails at transport level, both
records of the batch are still processed, each producing a caught
valid=false outcome whose reason is the APIRequestError message. -/
theorem C4_request_error_is_caught_counterexample :
    CnpjAPI.validate_cnpjs (fun _ => true) "brasilapi"
      (fun _ => .transportError "boom")
      ["11222333000181", "11444777000161"] =
      [{ cnpj := "11222333000181", valid := false,
         reason := "An error occurred while requesting https://brasilapi.com.br/api/cnpj/v1/11222333000181 from BRASILAPI: boom" },
       { cnpj := "11444777000161", valid := false,
         reason := "An error occurred while requesting https://brasilapi.com.br/api/cnpj/v1/11444777000161 from BRASILAPI: boom" }] :=
  rfl

/-- Claim C5.  A CNPJ field entry with an unregistered webservice makes
validate_dataset fail before any record is processed, but with an
AttributeError (the CnpjAPI class defines no available_webservices
attribute), not the intended configuration error; a CEP field entry
with an unregistered webservice does raise the configuration error
fail-fast.  Either way the result is an error, never a partial table. -/
theorem C5_check_fields_fail_fast :
    check_fields [⟨"CNPJ", true, some "bogus"⟩] [] =
      .error (.attributeError
        "type object CnpjAPI has no attribute available_webservices") ∧
    validate_dataset [⟨"CNPJ", true, some "bogus"⟩] ([1, 2, 3] : List Nat)
      (fun _ => [(1, "row")]) =
      .error (.attributeError
        "type object CnpjAPI has no attribute available_webservices") ∧
    validate_dataset [⟨"CEP", true, some "bogus"⟩] ([1, 2, 3] : List Nat)
      (fun _ => [(1, "row")]) =
      .error (.configError ("Unsupported web service bogus for CEP." ++
        "Available web services: viacep, brasil_aberto, opencep, brasilapi")) :=
  ⟨rfl, rfl, rfl⟩

/-- Claim C8 counterexample.  The claim says sanitize strips dots,
dashes, slashes and spaces.  Under that stripping the CPF string below
is 11 clean digits, yet CPFValidator._sanitize_cpf (which strips only
dots, dashes and commas) rejects it: the space survives and fails the
digit check. -/
theorem C8_separator_set_counterexample :
    pyIsDigit (spec_strip "123.456.789 09") = true ∧
    (spec_strip "123.456.789 09").length = 11 ∧
    isOkE (CPFValidator.sanitize_cpf "123.456.789 09") = false ∧
    CPFValidator.sanitize_cpf "123.456.789 09" =
      .error "Invalid CPF format. Ensure it contains only numbers." :=
  ⟨rfl, rfl, rfl, rfl⟩

/-- Claim C3.  With unique customer ids in the dataset id column and in
every per-field result table (the tables are keyed on the id), the join
pipeline of validate_dataset yields: no duplicate identities, identity
set equal to the id column united with the identities of every input
table (nothing dropped, nothing synthesized), and every row carrying one
column per input table, holding the sentinel none exactly when that
table has no row for the identity (joinLookup is none iff the key is
absent). -/
theorem C3_merge_identity_union {K V : Type} [DecidableEq K]
    (base : List K) (tables : List (List (K × V)))
    (hb : base.Nodup) (ht : ∀ t ∈ tables, (t.map Prod.fst).Nodup) :
    ((mergeTables base tables).map Prod.fst).Nodup ∧
    (∀ k, k ∈ (mergeTables base tables).map Prod.fst ↔
      k ∈ base ∨ ∃ t ∈ tables, k ∈ t.map Prod.fst) ∧
    (∀ p ∈ mergeTables base tables, p.2.length = tables.length ∧
      ∀ (i : ℕ) (t : List (K × V)), tables[i]? = some t →
        p.2[i]? = some (joinLookup p.1 t)) := by
  have hkeys : (base.map fun k => (k, ([] : List (Option V)))).map Prod.fst
      = base := by
    rw [List.map_map]
    exact List.map_id base
  obtain ⟨h1, h2, h3⟩ := mergeGo_spec tables ([] : List (List (K × V)))
    (base.map fun k => (k, ([] : List (Option V))))
    (by rw [hkeys]; exact hb)
    (by
      intro p hp
      obtain ⟨k, _, rfl⟩ := List.mem_map.mp hp
      exact ⟨rfl, fun i t' hit => by cases hit⟩)
    (by intro k _ t' ht'; cases ht')
    ht
  refine ⟨h1, ?_, ?_⟩
  · intro k
    rw [show mergeTables base tables =
      mergeGo (base.map fun k => (k, ([] : List (Option V)))) 0 tables from rfl]
    rw [show (0 : ℕ) = ([] : List (List (K × V))).length from rfl]
    rw [h2 k, hkeys]
  · intro p hp
    have hp' : p ∈ mergeGo (base.map fun k => (k, ([] : List (Option V))))
        ([] : List (List (K × V))).length tables := hp
    have h4 := h3 p hp'
    simpa using h4

/-- Claim C3 witness: merging id column [1, 2] with tables
[(2, a), (3, b)] and [(1, c)] gives the identity set 1, 2, 3 without
duplicates, and the row of identity 1 holds none for the first table and
c for the second. -/
theorem C3_merge_identity_union_witness :
    ([1, 2] : List ℕ).Nodup ∧
    ((mergeTables [1, 2] [[(2, "a"), (3, "b")], [(1, "c")]]).map
      Prod.fst).Nodup ∧
    (∀ k, k ∈ (mergeTables [1, 2]
        [[(2, "a"), (3, "b")], [(1, "c")]]).map Prod.fst ↔
      k ∈ [1, 2] ∨ ∃ t ∈ [[(2, "a"), (3, "b")], [(1, "c")]],
        k ∈ t.map Prod.fst) := by
  have hb : ([1, 2] : List ℕ).Nodup := by decide
  have ht : ∀ t ∈ [[(2, "a"), (3, "b")], [((1 : ℕ), "c")]],
      (t.map Prod.fst).Nodup := by decide
  obtain ⟨h1, h2, _⟩ := C3_merge_identity_union [1, 2]
    [[(2, "a"), (3, "b")], [(1, "c")]] hb ht
  exact ⟨hb, h1, h2⟩

/-- Claim C6.  The similarity score is the 3-decimal rounding of the
arithmetic mean of the per-attribute SequenceMatcher ratios over the
attributes non-empty on both sides; hence it lies in [0, 1], a pair
with no comparable attribute scores 0, and a record with at least one
comparable attribute scores 1 against itself. -/
theorem C6_similarity_score_contract :
    (∀ a1 a2 : Address,
      0 ≤ CepAPI.compute_similarity a1 a2 ∧ CepAPI.compute_similarity a1 a2 ≤ 1) ∧
    (∀ a1 a2 : Address, comparableRatios a1 a2 = [] →
      CepAPI.compute_similarity a1 a2 = 0) ∧
    (∀ a1 a2 : Address, comparableRatios a1 a2 ≠ [] →
      CepAPI.compute_similarity a1 a2 =
        pyRound3 ((comparableRatios a1 a2).sum /
          ((comparableRatios a1 a2).length : ℚ))) ∧
    (∀ a : Address, comparableRatios a a ≠ [] →
      CepAPI.compute_similarity a a = 1) := by
  have hmean : ∀ a1 a2 : Address, comparableRatios a1 a2 ≠ [] →
      0 ≤ (comparableRatios a1 a2).sum / ((comparableRatios a1 a2).length : ℚ) ∧
      (comparableRatios a1 a2).sum / ((comparableRatios a1 a2).length : ℚ) ≤ 1 := by
    intro a1 a2 hne
    have hb := comparableRatios_bounds a1 a2
    have hlen : 0 < (comparableRatios a1 a2).length := List.length_pos.mpr hne
    have hlenq : (0 : ℚ) < ((comparableRatios a1 a2).length : ℚ) := by
      exact_mod_cast hlen
    constructor
    · apply div_nonneg _ (le_of_lt hlenq)
      exact list_sum_nonneg_q fun x hx => (hb x hx).1
    · rw [div_le_one hlenq]
      exact list_sum_le_length_q fun x hx => (hb x hx).2
  refine ⟨?_, ?_, ?_, ?_⟩
  · intro a1 a2
    unfold CepAPI.compute_similarity
    split
    · norm_num
    · next hne =>
      have hne' : comparableRatios a1 a2 ≠ [] := by
        intro hc
        rw [hc] at hne
        exact hne rfl
      obtain ⟨h0, h1⟩ := hmean a1 a2 hne'
      exact ⟨pyRound3_nonneg h0, pyRound3_le_one h1⟩
  · intro a1 a2 h
    unfold CepAPI.compute_similarity
    rw [if_pos (by rw [h]; rfl)]
  · intro a1 a2 h
    unfold CepAPI.compute_similarity
    rw [if_neg (by rw [List.isEmpty_iff]; exact h)]
  · intro a h
    unfold CepAPI.compute_similarity
    rw [if_neg (by rw [List.isEmpty_iff]; exact h)]
    have hall := comparableRatios_self_all_one a
    have hsum := list_sum_all_one_q hall
    have hlen : 0 < (comparableRatios a a).length := List.length_pos.mpr h
    have hlenq : ((comparableRatios a a).length : ℚ) ≠ 0 := by
      have : (0 : ℚ) < ((comparableRatios a a).length : ℚ) := by exact_mod_cast hlen
      linarith
    rw [hsum, div_self hlenq, pyRound3_one]

/-- Claim C6 witness: an address whose only populated attribute is a
one-character postal code has a comparable attribute against itself and
scores exactly 1. -/
theorem C6_similarity_score_contract_witness :
    comparableRatios { cep := some "1" } { cep := some "1" } ≠ [] ∧
    CepAPI.compute_similarity { cep := some "1" } { cep := some "1" } = 1 := by
  have hne : comparableRatios { cep := some "1" } { cep := some "1" } ≠ [] := by
    with_unfolding_all decide
  exact ⟨hne, C6_similarity_score_contract.2.2.2 _ hne⟩

/-- Claim C7.  filter_addresses_by_similarity returns exactly the
candidates scoring strictly above 0 (a permutation of the in-order
filtered list), in descending score order, and candidates of equal
score keep their original relative order: for every score value the
equal-score sublist of the result equals that of the in-order filtered
list. -/
theorem C7_rank_drops_sorts_stable (target : Address)
    (search_addresses : List Address) :
    (CepAPI.filter_addresses_by_similarity target search_addresses).Perm
        (scoredCandidates target search_addresses) ∧
      (CepAPI.filter_addresses_by_similarity target search_addresses).Pairwise
        (fun a b => b.similarity_ratio ≤ a.similarity_ratio) ∧
      ∀ q : ℚ,
        (CepAPI.filter_addresses_by_similarity target
            search_addresses).filter (scoreIs q) =
          (scoredCandidates target search_addresses).filter (scoreIs q) := by
  obtain ⟨hs, hp, hf⟩ :=
    sortScoredDesc_spec (scoredCandidates target search_addresses)
  exact ⟨hp, hs, hf⟩

/-- Claim C4 amended.  RequestError is caught by the per-record
validation and converted into a valid=false outcome carrying the error
message as reason; the field-pass keeps going, producing one outcome per
input record.  First conjunct: the batch always yields one outcome per
record.  Second: a CNPJ whose sanitation and checksum pass, looked up
against a transport-failing backend, yields the caught outcome.  Third:
the same for address validation by postal code. -/
theorem C4_request_error_per_record_isolation :
    (∀ (check : String → Bool) (ws : String)
      (http : String → HttpResult CnpjResponse) (cnpj_list : List String),
      (CnpjAPI.validate_cnpjs check ws http cnpj_list).length =
        cnpj_list.length) ∧
    (∀ (check : String → Bool) (ws : String)
      (http : String → HttpResult CnpjResponse) (msg c s : String),
      (∀ u, http u = .transportError msg) →
      CNPJValidator.sanitize_cnpj c = .ok s → check s = true →
      CnpjAPI.validate_cnpj check ws http c =
        { cnpj := c
          valid := false
          reason := "An error occurred while requesting " ++
            cnpjBaseUrl ws s ++ " from " ++ pyUpper ws ++ ": " ++ msg }) ∧
    (∀ (ws : String) (http : String → HttpResult CepResponse)
      (query : FetchByAddress) (addr : Address) (sc : Bool) (msg : String)
      (ba : Bool × Address),
      (∀ u, http u = .transportError msg) →
      Address.sanitize_cep addr = .ok ba →
      CepAPI.validate_address ws http query addr sc =
        .ok { address := addr
              valid := false
              reason := "An error occurred while requesting " ++
                cepUrl ws (ba.2.cep.getD "") ++ " from " ++ pyUpper ws ++
                ": " ++ msg }) := by
  refine ⟨?_, ?_, ?_⟩
  · intro check ws http l
    simp [CnpjAPI.validate_cnpjs]
  · intro check ws http msg c s hhttp hsan hcheck
    unfold CnpjAPI.validate_cnpj
    simp [hsan, CNPJValidator.validate, hcheck, CnpjAPI.fetch_company_info,
      hhttp, Bind.bind, Except.bind]
  · intro ws http query addr sc msg ba hhttp hsan
    have hba := sanitize_cep_ok_true hsan
    unfold CepAPI.validate_address
    simp [hsan, hba, CepAPI.fetch_by_cep, hhttp, Bind.bind, Except.bind]

/-- Claim C4 amended witness: a concrete two-step instantiation — the
sanitized valid-format CNPJ against an always-failing transport yields
the caught per-record outcome. -/
theorem C4_request_error_per_record_isolation_witness :
    (∀ u : String, (fun _ : String =>
      HttpResult.transportError (α := CnpjResponse) "down") u =
        .transportError "down") ∧
    CNPJValidator.sanitize_cnpj "11444777000161" = .ok "11444777000161" ∧
    CnpjAPI.validate_cnpj (fun _ => true) "receitaws"
      (fun _ => .transportError "down") "11444777000161" =
      { cnpj := "11444777000161"
        valid := false
        reason := "An error occurred while requesting https://receitaws.com.br/v1/cnpj/11444777000161 from RECEITAWS: down" } := by
  refine ⟨fun _ => rfl, rfl, ?_⟩
  exact C4_request_error_per_record_isolation.2.1 (fun _ => true) "receitaws"
    (fun _ => .transportError "down") "down" "11444777000161" "11444777000161"
    (fun _ => rfl) rfl rfl

/-- Helper: every CPFValueError message of _sanitize_cpf is non-empty. -/
theorem sanitize_cpf_error_msg {raw : String} {e : String}
    (h : CPFValidator.sanitize_cpf raw = .error e) : e ≠ "" := by
  unfold CPFValidator.sanitize_cpf at h
  dsimp only at h
  split at h
  · cases h; decide
  · split at h
    · cases h; decide
    · cases h

/-- Claim C8 amended.  Each sanitizer succeeds iff, after removing its
own separator set (dots/dashes/commas for CPF; dots/slashes/dashes/commas
for CNPJ; dashes/dots/spaces for CEP — none of them the spec's uniform
dots/dashes/slashes/spaces), the remainder is all digits of the right
count (11/14/8); and the 10-digit tax id yields valid=false with the
11-digits reason regardless of the checksum oracle. -/
theorem C8_sanitize_characterization :
    (∀ raw : String, isOkE (CPFValidator.sanitize_cpf raw) = true ↔
      (pyIsDigit (stripChars ['.', '-', ','] raw) = true ∧
        (stripChars ['.', '-', ','] raw).length = 11)) ∧
    (∀ raw : String, isOkE (CNPJValidator.sanitize_cnpj raw) = true ↔
      (pyIsDigit (stripChars ['.', '/', '-', ','] raw) = true ∧
        (stripChars ['.', '/', '-', ','] raw).length = 14)) ∧
    (∀ raw : Option String, isOkE (Address.sanitize_cep_raw raw) = true ↔
      (pyIsDigit (stripChars ['-', '.', ' '] (raw.getD "")) = true ∧
        (stripChars ['-', '.', ' '] (raw.getD "")).length = 8)) ∧
    (∀ check : String → Bool,
      CPFValidator.validate_cpfs check ["1234567890"] =
        [⟨"1234567890", false,
          "Invalid CPF length. Ensure it has 11 digits."⟩]) := by
  refine ⟨?_, ?_, ?_, fun _ => rfl⟩
  · intro raw
    by_cases h1 : pyIsDigit (stripChars ['.', '-', ','] raw) = true
    · by_cases h2 : (stripChars ['.', '-', ','] raw).length = 11
      · simp [CPFValidator.sanitize_cpf, isOkE, h1, h2]
      · simp [CPFValidator.sanitize_cpf, isOkE, h1, h2]
    · simp [CPFValidator.sanitize_cpf, isOkE, h1]
  · intro raw
    by_cases h1 : pyIsDigit (stripChars ['.', '/', '-', ','] raw) = true
    · by_cases h2 : (stripChars ['.', '/', '-', ','] raw).length = 14
      · simp [CNPJValidator.sanitize_cnpj, isOkE, h1, h2]
      · simp [CNPJValidator.sanitize_cnpj, isOkE, h1, h2]
    · simp [CNPJValidator.sanitize_cnpj, isOkE, h1]
  · intro raw
    by_cases h0 : pyTruthyOpt raw = true
    · by_cases h2 : (stripChars ['-', '.', ' '] (raw.getD "")).length = 8
      · by_cases h1 : pyIsDigit (stripChars ['-', '.', ' '] (raw.getD "")) = true
        · simp [Address.sanitize_cep_raw, isOkE, h0, h1, h2]
        · simp [Address.sanitize_cep_raw, isOkE, h0, h1, h2]
      · simp [Address.sanitize_cep_raw, isOkE, h0, h2]
    · have hfalsy : raw.getD "" = "" := by
        rcases raw with _ | s
        · rfl
        · simp only [pyTruthyOpt, pyTruthy] at h0
          simp only [Option.getD_some]
          have : s.data.isEmpty = true := by
            rcases hi : s.data.isEmpty with _ | _
            · rw [hi] at h0; simp at h0
            · rfl
          exact String.ext (List.isEmpty_iff.mp this)
      simp [Address.sanitize_cep_raw, isOkE, h0, hfalsy]
      decide

/-- Claim C9 counterexample.  The claim says every outcome reason is
non-empty.  A well-formed postal code looked up against a backend that
answers 200 with a record whose cep field is the empty string takes the
falsy-data path of validate_address, which never assigns a reason: the
outcome is valid=false with reason equal to the empty string. -/
theorem C9_empty_reason_counterexample :
    CepAPI.validate_address "opencep"
      (fun _ => .response 200 { cep := some "" })
      (fun _ _ _ => .error (.request "x")) { cep := some "01000000" } false =
      .ok { address := { cep := some "01000000" }, valid := false,
            reason := "" } :=
  rfl

/-- Claim C9 amended.  Reasons are non-empty for every CPF batch outcome
and for every validate_address outcome except one path: when the code
lookup succeeds but the returned record carries an empty cep value, the
outcome keeps the initial empty reason.  Formally, an empty reason
implies exactly that path was taken. -/
theorem C9_reason_nonempty_amended :
    (∀ (check : String → Bool) (cpfs : List String) (r : CpfOutcome),
      r ∈ CPFValidator.validate_cpfs check cpfs → r.reason ≠ "") ∧
    (∀ (ws : String) (http : String → HttpResult CepResponse)
      (query : FetchByAddress) (addr : Address) (sc : Bool) (r : AddrOutcome),
      CepAPI.validate_address ws http query addr sc = .ok r →
      r.reason = "" →
      ∃ (ba : Bool × Address) (body : CepResponse),
        Address.sanitize_cep addr = .ok ba ∧
        CepAPI.fetch_by_cep ws http (ba.2.cep.getD "") = .ok body ∧
        body.cep = some "") := by
  constructor
  · intro check cpfs r hr
    unfold CPFValidator.validate_cpfs at hr
    obtain ⟨c, _, rfl⟩ := List.mem_map.mp hr
    rcases hs : CPFValidator.sanitize_cpf c with e | s
    · exact sanitize_cpf_error_msg hs
    · dsimp only
      rcases hv : CPFValidator.validate check s with e2 | v
      · unfold CPFValidator.validate at hv
        split at hv
        · cases hv
          have h : ("The provided CPF is not valid." : String) ≠ "" := by decide
          exact h
        · cases hv
      · rcases v with _ | _
        · have h : ("Invalid CPF." : String) ≠ "" := by decide
          exact h
        · have h : ("Valid CPF." : String) ≠ "" := by decide
          exact h
  · intro ws http query addr sc r heq hre
    unfold CepAPI.validate_address at heq
    rcases hsan : Address.sanitize_cep addr with e | ba
    · obtain ⟨m, rfl, hm⟩ := sanitize_cep_error_msg hsan
      rw [hsan] at heq
      simp only [Bind.bind, Except.bind] at heq
      cases heq
      exact absurd hre hm
    · have hba := sanitize_cep_ok_true hsan
      rw [hsan] at heq
      simp only [Bind.bind, Except.bind, hba, if_true] at heq
      rcases hfet : CepAPI.fetch_by_cep ws http (ba.2.cep.getD "") with e2 | body
      · obtain ⟨m, rfl, hm⟩ := fetch_by_cep_error_msg hfet
        rw [hfet] at heq
        cases heq
        exact absurd hre hm
      · rw [hfet] at heq
        dsimp only at heq
        rcases hcep : body.cep with _ | c
        · rw [hcep] at heq
          cases heq
        · rw [hcep] at heq
          dsimp only at heq
          by_cases hc : pyTruthy c = true
          · rw [if_pos hc] at heq
            cases heq
            have hne : ("Valid CEP." : String) ≠ "" := by decide
            exact absurd hre hne
          · rw [if_neg hc] at heq
            have hcd : c = "" := by
              simp only [pyTruthy, Bool.not_eq_true] at hc
              have hie : c.data.isEmpty = true := by
                rcases hi : c.data.isEmpty with _ | _
                · rw [hi] at hc; simp at hc
                · rfl
              exact String.ext (List.isEmpty_iff.mp hie)
            cases heq
            exact ⟨ba, body, rfl, hfet, by rw [hcep, hcd]⟩

/-- Claim C9 amended witness: the CPF part instantiated at a checksum
oracle accepting everything and one valid-format CPF, and the address
part instantiated at the empty-cep-record backend, recovering the
exceptional path. -/
theorem C9_reason_nonempty_amended_witness :
    ((⟨"52998224725", true, "Valid CPF."⟩ : CpfOutcome) ∈
      CPFValidator.validate_cpfs (fun _ => true) ["52998224725"]) ∧
    ("Valid CPF." : String) ≠ "" ∧
    (∃ (ba : Bool × Address) (body : CepResponse),
      Address.sanitize_cep { cep := some "01000000" } = .ok ba ∧
      CepAPI.fetch_by_cep "opencep" (fun _ => .response 200 { cep := some "" })
        (ba.2.cep.getD "") = .ok body ∧
      body.cep = some "") := by
  have hmem : (⟨"52998224725", true, "Valid CPF."⟩ : CpfOutcome) ∈
      CPFValidator.validate_cpfs (fun _ => true) ["52998224725"] := by decide
  refine ⟨hmem, ?_, ?_⟩
  · exact C9_reason_nonempty_amended.1 (fun _ => true) ["52998224725"]
      ⟨"52998224725", true, "Valid CPF."⟩ hmem
  · exact C9_reason_nonempty_amended.2 "opencep"
      (fun _ => .response 200 { cep := some "" })
      (fun _ _ _ => .error (.request "x")) { cep := some "01000000" } false
      { address := { cep := some "01000000" }, valid := false, reason := "" }
      rfl rfl

/-- Claim C10.  Every phone outcome flagged possible_mobile=true is also
valid=true: the mobile flag is only computed after validate() succeeded,
and every failure path resets it to false. -/
theorem C10_possible_mobile_implies_valid {P : Type} (lib : PhoneLib P)
    (phone_numbers : List String) (r : PhoneOutcome)
    (hr : r ∈ PhoneValidator.validate_phone_numbers lib phone_numbers)
    (hm : r.possible_mobile = true) : r.valid = true := by
  unfold PhoneValidator.validate_phone_numbers at hr
  obtain ⟨n, _, rfl⟩ := List.mem_map.mp hr
  rcases hp : lib.parse n with e | p
  · rw [hp] at hm
    dsimp only at hm
    have h : ¬ (false = true) := by decide
    exact absurd hm h
  · rw [hp] at hm
    dsimp only at hm ⊢
    by_cases hv : lib.is_valid_number p = true
    · rw [if_pos hv]
    · rw [if_neg hv] at hm
      have h : ¬ (false = true) := by decide
      exact absurd hm h

/-- Claim C10 witness: a one-element batch against a library stub that
parses and validates everything as mobile; the outcome has
possible_mobile=true and the theorem yields valid=true. -/
theorem C10_possible_mobile_implies_valid_witness :
    ((⟨"+5511999990000", true, true, "Valid phone number."⟩ : PhoneOutcome) ∈
      PhoneValidator.validate_phone_numbers
        (⟨fun _ => .ok (), fun _ => true, fun _ => true⟩ : PhoneLib Unit)
        ["+5511999990000"]) ∧
    (⟨"+5511999990000", true, true, "Valid phone number."⟩ :
      PhoneOutcome).valid = true := by
  have hmem : (⟨"+5511999990000", true, true, "Valid phone number."⟩ :
      PhoneOutcome) ∈ PhoneValidator.validate_phone_numbers
        (⟨fun _ => .ok (), fun _ => true, fun _ => true⟩ : PhoneLib Unit)
        ["+5511999990000"] := by decide
  exact ⟨hmem, C10_possible_mobile_implies_valid _ _ _ hmem rfl⟩

end Kami
